import Mathlib

/-!
Verification of the PeopleConnects web application.

The repository contains two parallel implementations of the same CRUD
surface: a token-session implementation (src/backend/main.py, embedded
below in namespace Backend) and a plaintext-cookie implementation
(src/main.py, embedded in namespace Cookie).  The document store is
modelled as explicit lists of user and post records; each request
handler becomes a pure function from the database state (plus the
decoded session and the form fields) to a response paired with the new
database state.  MongoDB array-update operators are modelled by the
list functions below.
-/

/-- MongoDB pull operator on a string array: removes every element equal
to the given value. -/
def mongoPull (l : List String) (u : String) : List String :=
  l.filter (fun x => x != u)

/-- MongoDB push operator: appends the value at the end of the array. -/
def mongoPush (l : List String) (u : String) : List String :=
  l ++ [u]

/-- MongoDB addToSet operator: appends the value at the end of the array
if and only if it is not already present. -/
def mongoAddToSet (l : List String) (u : String) : List String :=
  if u ∈ l then l else l ++ [u]

/-- MongoDB positional update (field.$ with a filter matching the array):
replaces the first occurrence of the old value by the new one. -/
def setFirstOcc : List String → String → String → List String
  | [], _, _ => []
  | x :: xs, old, nw => if x = old then nw :: xs else x :: setFirstOcc xs old nw

/-- MongoDB update_one: applies f to the first element satisfying p and
keeps every other element unchanged. -/
def updateFirst (p : α → Bool) (f : α → α) : List α → List α
  | [] => []
  | x :: xs => if p x then f x :: xs else x :: updateFirst p f xs

/-- Responses produced by the request handlers of either implementation:
redirects, raised HTTPExceptions, re-rendered templates (with the parts
of the template context that the specification talks about), plain page
renders, and the Python-level crash that subscripting a missing document
would produce (HTTP 500). -/
inductive Resp where
  | redirect (url : String) (code : Nat)
  | httpError (code : Nat) (detail : String)
  | renderRegister (error : String) (username : String) (email : String)
  | renderEditProfile (error : String) (username : String)
  | page (name : String)
  | serverError
deriving DecidableEq

namespace Backend

/-- Embedded comment document of src/backend/main.py (add_comment): keys
username, text, timestamp. -/
structure Comment where
  username : String
  text : String
  timestamp : Nat
deriving DecidableEq

/-- Post document of src/backend/main.py (create_post): author, content,
image, timestamp, likes, comments; the id models the ObjectId as a
string. -/
structure Post where
  id : String
  author : String
  content : String
  image : Option String
  timestamp : Nat
  likes : List String
  comments : List Comment
deriving DecidableEq

/-- User document of src/backend/main.py (register): username, email,
password, profile_pic, followers, following, created_at; the id models
the ObjectId as a string. -/
structure User where
  id : String
  username : String
  email : String
  password : String
  profile_pic : Option String
  followers : List String
  following : List String
  created_at : Nat
deriving DecidableEq

/-- The two collections of the document store. -/
structure DB where
  users : List User
  posts : List Post
deriving DecidableEq

/-- find_one on the users collection with a username filter. -/
def findUser (users : List User) (username : String) : Option User :=
  users.find? (fun u => u.username == username)

/-- find_one on the posts collection with an _id filter. -/
def findPost (posts : List Post) (pid : String) : Option Post :=
  posts.find? (fun p => p.id == pid)

/-- update_one on the users collection with a username filter. -/
def updateUser (users : List User) (username : String) (f : User → User) : List User :=
  updateFirst (fun u => u.username == username) f users

/-- update_one on the posts collection with an _id filter. -/
def updatePost (posts : List Post) (pid : String) (f : Post → Post) : List Post :=
  updateFirst (fun p => p.id == pid) f posts

/-- Modelled from the spec: backend/auth.py is not under src/ (only its
callers are); the spec says the password helper delegates to a standard
hashing library with no custom cryptographic design.  Modelled as an
uninterpreted tagging function. -/
def hash_password (p : String) : String :=
  "hashed:" ++ p

/-- POST /register of src/backend/main.py.  newId models the ObjectId
assigned by insert_one and now the current time. -/
def register (db : DB) (newId : String) (username email password : String)
    (now : Nat) : Resp × DB :=
  match db.users.find? (fun u => u.username == username || u.email == email) with
  | some existing =>
      (Resp.renderRegister
        (if existing.username = username then
          "Username already taken. Please choose a different username."
        else
          "Email already registered. Please use a different email or login.")
        username email, db)
  | none =>
      (Resp.redirect "/login?registered=true" 303,
       { db with users := db.users ++
          [{ id := newId, username := username, email := email,
             password := hash_password password, profile_pic := none,
             followers := [], following := [], created_at := now }] })

/-- POST /posts/create of src/backend/main.py.  The session argument is
the decoded token subject returned by get_current_user (none when the
cookie is absent or the token does not decode); image_url is the path
returned by save_upload_file for the optional upload. -/
def create_post (db : DB) (session : Option String) (content : String)
    (image_url : Option String) (newId : String) (now : Nat) : Resp × DB :=
  match session with
  | none => (Resp.httpError 401 "Not authenticated", db)
  | some username =>
      (Resp.redirect "/feed" 303,
       { db with posts := db.posts ++
          [{ id := newId, author := username, content := content,
             image := image_url, timestamp := now,
             likes := [], comments := [] }] })

/-- POST /posts/post_id/like of src/backend/main.py: toggles membership
of the session user in the likes array with pull / addToSet.
refererFeed models whether the referer header contains /feed. -/
def like_post (db : DB) (session : Option String) (pid : String)
    (refererFeed : Bool) : Resp × DB :=
  match session with
  | none => (Resp.httpError 401 "Not authenticated", db)
  | some username =>
    match findPost db.posts pid with
    | none => (Resp.httpError 404 "Post not found", db)
    | some post =>
        let posts :=
          if username ∈ post.likes then
            updatePost db.posts pid (fun p => { p with likes := mongoPull p.likes username })
          else
            updatePost db.posts pid (fun p => { p with likes := mongoAddToSet p.likes username })
        (Resp.redirect (if refererFeed then "/feed" else "/posts/" ++ pid) 303,
         { db with posts := posts })

/-- POST /posts/post_id/comment of src/backend/main.py: pushes an
embedded comment document; no existence check, update_one on a missing
post is a no-op. -/
def add_comment (db : DB) (session : Option String) (pid : String)
    (text : String) (now : Nat) : Resp × DB :=
  match session with
  | none => (Resp.httpError 401 "Not authenticated", db)
  | some username =>
      (Resp.redirect ("/posts/" ++ pid) 303,
       { db with posts := updatePost db.posts pid (fun p =>
          { p with comments := p.comments ++ [{ username := username, text := text, timestamp := now }] }) })

/-- POST /posts/post_id/edit of src/backend/main.py. -/
def edit_post (db : DB) (session : Option String) (pid : String)
    (content : String) : Resp × DB :=
  match session with
  | none => (Resp.httpError 401 "Not authenticated", db)
  | some username =>
    match findPost db.posts pid with
    | none => (Resp.httpError 404 "Post not found", db)
    | some post =>
      if post.author ≠ username then
        (Resp.httpError 403 "You are not authorized to edit this post", db)
      else
        (Resp.redirect ("/posts/" ++ pid) 303,
         { db with posts := updatePost db.posts pid (fun p => { p with content := content }) })

/-- POST /posts/post_id/delete of src/backend/main.py. -/
def delete_post (db : DB) (session : Option String) (pid : String) : Resp × DB :=
  match session with
  | none => (Resp.httpError 401 "Not authenticated", db)
  | some username =>
    match findPost db.posts pid with
    | none => (Resp.httpError 404 "Post not found", db)
    | some post =>
      if post.author ≠ username then
        (Resp.httpError 403 "You are not authorized to delete this post", db)
      else
        (Resp.redirect "/feed" 303,
         { db with posts := db.posts.eraseP (fun p => p.id == pid) })

/-- POST /follow/username of src/backend/main.py: a 400 on self-follow,
otherwise two sequential addToSet update_ones. -/
def follow_user (db : DB) (session : Option String) (username : String) : Resp × DB :=
  match session with
  | none => (Resp.httpError 401 "Not authenticated", db)
  | some current_user =>
    if current_user = username then
      (Resp.httpError 400 "Cannot follow yourself", db)
    else
      let users1 := updateUser db.users current_user (fun u =>
        { u with following := mongoAddToSet u.following username })
      let users2 := updateUser users1 username (fun u =>
        { u with followers := mongoAddToSet u.followers current_user })
      (Resp.redirect ("/profile/" ++ username) 303, { db with users := users2 })

/-- POST /unfollow/username of src/backend/main.py: two sequential pull
update_ones, with no self check. -/
def unfollow_user (db : DB) (session : Option String) (username : String) : Resp × DB :=
  match session with
  | none => (Resp.httpError 401 "Not authenticated", db)
  | some current_user =>
    let users1 := updateUser db.users current_user (fun u =>
      { u with following := mongoPull u.following username })
    let users2 := updateUser users1 username (fun u =>
      { u with followers := mongoPull u.followers current_user })
    (Resp.redirect ("/profile/" ++ username) 303, { db with users := users2 })

/-- Allowed content types of the profile-picture upload endpoint. -/
def allowed_types : List String :=
  ["image/jpeg", "image/png", "image/jpg", "image/gif", "image/webp"]

/-- POST /profile/upload-picture of src/backend/main.py.  The middle
component of the result is the path of the file written by
save_upload_file (none when nothing was saved); image_url is the path
the save would produce. -/
def upload_profile_picture (db : DB) (session : Option String)
    (content_type : String) (image_url : String) : Resp × Option String × DB :=
  match session with
  | none => (Resp.httpError 401 "Not authenticated", none, db)
  | some username =>
    if content_type ∉ allowed_types then
      (Resp.httpError 400 "Invalid file type. Only images allowed.", none, db)
    else
      (Resp.redirect ("/profile/" ++ username) 303, some image_url,
       { db with users := updateUser db.users username (fun u =>
          { u with profile_pic := some image_url }) })

/-- Python truthiness of an optional string form field: the empty string
behaves like an absent field. -/
def truthy (s : Option String) : Option String :=
  match s with
  | some e => if e ≠ "" then some e else none
  | none => none

/-- The update_data set applied to the user document by edit_profile. -/
def applyUserSet (userUpd emailUpd passUpd : Option String) (u : User) : User :=
  { u with username := userUpd.getD u.username,
           email := emailUpd.getD u.email,
           password := passUpd.getD u.password }

/-- update_many author sweep of edit_profile: set author on every post
whose author is the old username. -/
def renamePostsAuthor (posts : List Post) (old nw : String) : List Post :=
  posts.map (fun p => if p.author = old then { p with author := nw } else p)

/-- update_many followers sweep of edit_profile: the positional dollar
update rewrites the first matching array element of each matching
document. -/
def renameFollowers (users : List User) (old nw : String) : List User :=
  users.map (fun u =>
    if old ∈ u.followers then { u with followers := setFirstOcc u.followers old nw } else u)

/-- update_many following sweep of edit_profile (positional dollar
update). -/
def renameFollowing (users : List User) (old nw : String) : List User :=
  users.map (fun u =>
    if old ∈ u.following then { u with following := setFirstOcc u.following old nw } else u)

/-- update_many likes sweep of edit_profile (positional dollar
update). -/
def renameLikes (posts : List Post) (old nw : String) : List Post :=
  posts.map (fun p =>
    if old ∈ p.likes then { p with likes := setFirstOcc p.likes old nw } else p)

/-- update_many comments sweep of edit_profile: arrayFilters rewrite of
every comment element whose username matches. -/
def renameComments (posts : List Post) (old nw : String) : List Post :=
  posts.map (fun p =>
    if p.comments.any (fun c => c.username == old) then
      { p with comments := p.comments.map (fun c =>
        if c.username = old then { c with username := nw } else c) }
    else p)

/-- POST /profile/edit of src/backend/main.py.  On a username change the
handler sequentially sweeps posts (author), followers and following
arrays, likes arrays, and comment arrays. -/
def edit_profile (db : DB) (session : Option String) (new_username : String)
    (email password : Option String) : Resp × DB :=
  match session with
  | none => (Resp.httpError 401 "Not authenticated", db)
  | some current_username =>
    if new_username ≠ current_username ∧ (findUser db.users new_username).isSome then
      (Resp.renderEditProfile "Username already taken. Please choose another." current_username, db)
    else
      let userUpd : Option String :=
        if new_username ≠ "" ∧ new_username ≠ current_username then some new_username else none
      let emailUpd : Option String := truthy email
      let passUpd : Option String := (truthy password).map hash_password
      if userUpd = none ∧ emailUpd = none ∧ passUpd = none then
        (Resp.redirect ("/profile/" ++ current_username) 303, db)
      else
        let users1 := updateUser db.users current_username (applyUserSet userUpd emailUpd passUpd)
        match userUpd with
        | none => (Resp.redirect ("/profile/" ++ current_username) 303, { db with users := users1 })
        | some nu =>
          let posts1 := renamePostsAuthor db.posts current_username nu
          let users2 := renameFollowers users1 current_username nu
          let users3 := renameFollowing users2 current_username nu
          let posts2 := renameLikes posts1 current_username nu
          let posts3 := renameComments posts2 current_username nu
          (Resp.redirect ("/profile/" ++ nu) 303, { users := users3, posts := posts3 })

/-- POST /admin/users/user_id/delete of src/backend/main.py: checks only
that the admin_token cookie is present, deletes the user document by id,
then issues delete_many on posts with the filter author equal to the
user_id path parameter. -/
def admin_delete_user (db : DB) (admin_token : Option String) (user_id : String) : Resp × DB :=
  match admin_token with
  | none => (Resp.httpError 401 "Not authenticated", db)
  | some _ =>
      (Resp.redirect "/admin/dashboard" 303,
       { db with users := db.users.eraseP (fun u => u.id == user_id),
                 posts := db.posts.filter (fun p => p.author != user_id) })

/-- Total order on posts used by the default, following and recent feed
branches: sort by timestamp descending. -/
def tsDesc (p q : Post) : Prop :=
  q.timestamp ≤ p.timestamp

instance : DecidableRel tsDesc := fun p q =>
  inferInstanceAs (Decidable (q.timestamp ≤ p.timestamp))

instance : IsTotal Post tsDesc :=
  ⟨fun a b => le_total b.timestamp a.timestamp⟩

instance : IsTrans Post tsDesc :=
  ⟨fun _ _ _ h1 h2 => le_trans h2 h1⟩

/-- Order used by the popular feed branch: like count descending, then
timestamp descending. -/
def popDesc (p q : Post) : Prop :=
  q.likes.length < p.likes.length ∨
    (q.likes.length = p.likes.length ∧ q.timestamp ≤ p.timestamp)

instance : DecidableRel popDesc := fun p q =>
  inferInstanceAs (Decidable (q.likes.length < p.likes.length ∨
    (q.likes.length = p.likes.length ∧ q.timestamp ≤ p.timestamp)))

/-- Result of GET /feed of src/backend/main.py: a redirect to /login, a
crash when the session user has no user document (user.get on None), or
the rendered list of posts. -/
inductive FeedResult where
  | redirectLogin
  | crash
  | page (posts : List Post)
deriving DecidableEq

/-- GET /feed of src/backend/main.py: the query, sort and limit logic of
the four filter branches.  yesterday models utcnow minus one day. -/
def feed (db : DB) (session : Option String) (filt : Option String)
    (yesterday : Nat) : FeedResult :=
  match session with
  | none => FeedResult.redirectLogin
  | some username =>
    match findUser db.users username with
    | none => FeedResult.crash
    | some user =>
      let following := user.following
      if filt = some "following" then
        let query : Post → Bool :=
          if following ≠ [] then
            (fun p => (following ++ [username]).contains p.author)
          else
            (fun p => p.author == username)
        FeedResult.page (((db.posts.filter query).insertionSort tsDesc).take 100)
      else if filt = some "popular" then
        FeedResult.page ((db.posts.insertionSort popDesc).take 100)
      else if filt = some "recent" then
        FeedResult.page (((db.posts.filter (fun p => yesterday ≤ p.timestamp)).insertionSort tsDesc).take 100)
      else
        FeedResult.page ((db.posts.insertionSort tsDesc).take 100)

end Backend

namespace Cookie

/-- Embedded comment document of src/main.py (comment_on_post): keys
author and text. -/
structure Comment where
  author : String
  text : String
deriving DecidableEq

/-- Post document of src/main.py (create_post): author, content, photo,
likes, comments, and the timestamp that is always stored as the empty
string; the id models the ObjectId as a string. -/
structure Post where
  id : String
  author : String
  content : String
  photo : Option String
  likes : List String
  comments : List Comment
  timestamp : String
deriving DecidableEq

/-- User document of src/main.py (signup): only username and password. -/
structure User where
  username : String
  password : String
deriving DecidableEq

/-- The two collections of the document store. -/
structure DB where
  users : List User
  posts : List Post
deriving DecidableEq

/-- find_one on the posts collection with an _id filter. -/
def findPost (posts : List Post) (pid : String) : Option Post :=
  posts.find? (fun p => p.id == pid)

/-- update_one on the posts collection with an _id filter. -/
def updatePost (posts : List Post) (pid : String) (f : Post → Post) : List Post :=
  updateFirst (fun p => p.id == pid) f posts

/-- get_current_user of src/main.py: reads the plaintext username cookie
and looks the user document up. -/
def get_current_user (db : DB) (cookie : Option String) : Option User :=
  match cookie with
  | none => none
  | some username => db.users.find? (fun u => u.username == username)

/-- POST /signup of src/main.py: a 400 HTTPException on a taken
username, otherwise an insert storing the plaintext password. -/
def signup (db : DB) (username password : String) : Resp × DB :=
  if (db.users.find? (fun u => u.username == username)).isSome then
    (Resp.httpError 400 "Username already registered", db)
  else
    (Resp.redirect "/login" 303,
     { db with users := db.users ++ [{ username := username, password := password }] })

/-- POST /posts of src/main.py.  photo is the uploaded filename when a
nonempty upload is present. -/
def create_post (db : DB) (cookie : Option String) (content : String)
    (photo : Option String) (newId : String) : Resp × DB :=
  match get_current_user db cookie with
  | none => (Resp.redirect "/login" 303, db)
  | some user =>
      (Resp.redirect "/" 303,
       { db with posts := db.posts ++
          [{ id := newId, author := user.username, content := content,
             photo := photo.map (fun f => user.username ++ "_" ++ f),
             likes := [], comments := [], timestamp := "" }] })

/-- POST /posts/post_id/edit of src/main.py: the author check raises 403
also when no user is logged in; subscripting a missing post crashes. -/
def edit_post (db : DB) (cookie : Option String) (pid : String)
    (content : String) : Resp × DB :=
  let post := findPost db.posts pid
  match get_current_user db cookie with
  | none => (Resp.httpError 403 "You can only edit your own posts", db)
  | some user =>
    match post with
    | none => (Resp.serverError, db)
    | some p =>
      if user.username ≠ p.author then
        (Resp.httpError 403 "You can only edit your own posts", db)
      else
        (Resp.redirect "/" 303,
         { db with posts := updatePost db.posts pid (fun q => { q with content := content }) })

/-- POST /posts/post_id/delete of src/main.py. -/
def delete_post (db : DB) (cookie : Option String) (pid : String) : Resp × DB :=
  let post := findPost db.posts pid
  match get_current_user db cookie with
  | none => (Resp.httpError 403 "You can only delete your own posts", db)
  | some user =>
    match post with
    | none => (Resp.serverError, db)
    | some p =>
      if user.username ≠ p.author then
        (Resp.httpError 403 "You can only delete your own posts", db)
      else
        (Resp.redirect "/" 303,
         { db with posts := db.posts.eraseP (fun q => q.id == pid) })

/-- POST /posts/post_id/like of src/main.py: toggles membership of the
user in the likes array with pull / push. -/
def like_post (db : DB) (cookie : Option String) (pid : String) : Resp × DB :=
  match get_current_user db cookie with
  | none => (Resp.redirect "/login" 303, db)
  | some user =>
    match findPost db.posts pid with
    | none => (Resp.serverError, db)
    | some post =>
      let posts :=
        if user.username ∈ post.likes then
          updatePost db.posts pid (fun p => { p with likes := mongoPull p.likes user.username })
        else
          updatePost db.posts pid (fun p => { p with likes := mongoPush p.likes user.username })
      (Resp.redirect "/" 303, { db with posts := posts })

/-- POST /posts/post_id/comment of src/main.py: pushes an embedded
comment with keys author and text; no existence check. -/
def comment_on_post (db : DB) (cookie : Option String) (pid : String)
    (comment : String) : Resp × DB :=
  match get_current_user db cookie with
  | none => (Resp.redirect "/login" 303, db)
  | some user =>
      (Resp.redirect "/" 303,
       { db with posts := updatePost db.posts pid (fun p =>
          { p with comments := p.comments ++ [{ author := user.username, text := comment }] }) })

end Cookie

/-- Iterated application of the follow handler by the same session user
on the same target, used to state idempotence of following. -/
def followN (db : Backend.DB) (cu target : String) : Nat → Backend.DB
  | 0 => db
  | n + 1 => (Backend.follow_user (followN db cu target n) (some cu) target).2

/-- The rewriting of one username occurrence that a rename is expected
to perform on every membership array. -/
def renameOcc (old nw x : String) : String :=
  if x = old then nw else x

/-- Invariant: no likes array of the token-based store holds duplicate
usernames. -/
def Backend.likesNodup (db : Backend.DB) : Prop :=
  ∀ p ∈ db.posts, p.likes.Nodup

/-- Invariant: no likes array of the cookie-based store holds duplicate
usernames. -/
def Cookie.likesNodup (db : Cookie.DB) : Prop :=
  ∀ p ∈ db.posts, p.likes.Nodup

/-- Concrete token-implementation users and posts for witnesses. -/
def uAlice : Backend.User :=
  { id := "u1", username := "alice", email := "alice@mail.com", password := "pw1",
    profile_pic := none, followers := ["bob"], following := ["bob"], created_at := 0 }

def uBob : Backend.User :=
  { id := "u2", username := "bob", email := "bob@mail.com", password := "pw2",
    profile_pic := none, followers := ["alice"], following := ["alice"], created_at := 0 }

def pOne : Backend.Post :=
  { id := "p1", author := "alice", content := "hello", image := none, timestamp := 5,
    likes := ["bob"], comments := [{ username := "alice", text := "first", timestamp := 6 }] }

def pTwo : Backend.Post :=
  { id := "p2", author := "bob", content := "yo", image := none, timestamp := 9,
    likes := [], comments := [] }

def dbB : Backend.DB :=
  { users := [uAlice, uBob], posts := [pOne, pTwo] }

/-- Concrete cookie-implementation users and posts for witnesses. -/
def cAlice : Cookie.User := { username := "alice", password := "pw1" }

def cBob : Cookie.User := { username := "bob", password := "pw2" }

def cpOne : Cookie.Post :=
  { id := "p1", author := "alice", content := "hello", photo := none,
    likes := ["bob"], comments := [], timestamp := "" }

def dbC : Cookie.DB :=
  { users := [cAlice, cBob], posts := [cpOne] }

/-- Fresh users for the duplicated-array-entry stores below. -/
def aliceD : Backend.User :=
  { id := "d1", username := "alice", email := "aliced@mail.com", password := "pw",
    profile_pic := none, followers := [], following := [], created_at := 0 }

def carolD : Backend.User :=
  { id := "d2", username := "carol", email := "carold@mail.com", password := "pw",
    profile_pic := none, followers := [], following := [], created_at := 0 }

def daveD : Backend.User :=
  { id := "d3", username := "dave", email := "daved@mail.com", password := "pw",
    profile_pic := none, followers := [], following := [], created_at := 0 }

def aliceD8 : Backend.User :=
  { id := "d4", username := "alice", email := "aliced8@mail.com", password := "pw",
    profile_pic := none, followers := [], following := [], created_at := 0 }

/-- A store reached purely through the handlers in which an array holds a
duplicated entry: carol follows the not-yet-existing name dave (the follow
handler never checks that the target exists), then follows alice, and
alice renames herself to dave; the positional following update turns
carol.following = [dave, alice] into [dave, dave]. -/
def dbC1dup : Backend.DB :=
  (Backend.edit_profile
    (Backend.follow_user
      (Backend.follow_user { users := [aliceD, carolD], posts := [] } (some "carol") "dave").2
      (some "carol") "alice").2
    (some "alice") "dave" none none).2

/-- The same construction with dave as the follower: dave follows the
not-yet-existing name bob, then follows alice, and alice renames herself
to bob, leaving dave.following = [bob, bob] while a user record named
bob now exists. -/
def dbC8dup : Backend.DB :=
  (Backend.edit_profile
    (Backend.follow_user
      (Backend.follow_user { users := [daveD, aliceD8], posts := [] } (some "dave") "bob").2
      (some "dave") "alice").2
    (some "alice") "bob" none none).2

/-! ## General lemmas about the list model of the store operations -/

theorem find?_updateFirst (p : α → Bool) (f : α → α) (l : List α)
    (hf : ∀ a, p (f a) = p a) :
    (updateFirst p f l).find? p = (l.find? p).map f := by
  induction l with
  | nil => rfl
  | cons a l ih =>
    by_cases h : p a
    · simp [updateFirst, h, hf a]
    · simp [updateFirst, h, ih]

theorem find?_updateFirst_of_disj (p q : α → Bool) (f : α → α) (l : List α)
    (hq : ∀ a, q (f a) = q a) (hdisj : ∀ a, p a = true → q a = false) :
    (updateFirst p f l).find? q = l.find? q := by
  induction l with
  | nil => rfl
  | cons a l ih =>
    by_cases h : p a
    · have hqa : q a = false := hdisj a (by simpa using h)
      simp [updateFirst, h, hq a, hqa]
    · by_cases h2 : q a
      · simp [updateFirst, h, h2]
      · simp [updateFirst, h, h2, ih]

theorem mem_updateFirst {p : α → Bool} {f : α → α} {l : List α} {x : α}
    (hx : x ∈ updateFirst p f l) : x ∈ l ∨ ∃ b ∈ l, x = f b := by
  induction l with
  | nil => simp [updateFirst] at hx
  | cons a l ih =>
    by_cases h : p a
    · simp [updateFirst, h] at hx
      rcases hx with rfl | hx
      · exact Or.inr ⟨a, by simp, rfl⟩
      · exact Or.inl (by simp [hx])
    · simp [updateFirst, h] at hx
      rcases hx with rfl | hx
      · exact Or.inl (by simp)
      · rcases ih hx with h1 | ⟨b, hb, rfl⟩
        · exact Or.inl (by simp [h1])
        · exact Or.inr ⟨b, by simp [hb], rfl⟩

theorem forall₂_updateFirst (r : α → α → Prop) (p : α → Bool) (f : α → α)
    (l : List α) (h1 : ∀ a ∈ l, r a a) (h2 : ∀ a ∈ l, r a (f a)) :
    List.Forall₂ r l (updateFirst p f l) := by
  induction l with
  | nil => simp [updateFirst]
  | cons a l ih =>
    by_cases h : p a
    · simp only [updateFirst, h, if_pos]
      exact List.Forall₂.cons (h2 a (by simp))
        (List.forall₂_same.mpr (fun x hx => h1 x (by simp [hx])))
    · simp only [updateFirst, h, if_neg]
      exact List.Forall₂.cons (h1 a (by simp))
        (ih (fun x hx => h1 x (by simp [hx])) (fun x hx => h2 x (by simp [hx])))

theorem setFirstOcc_eq_map {l : List String} {old nw : String}
    (h : l.count old ≤ 1) :
    setFirstOcc l old nw = l.map (renameOcc old nw) := by
  induction l with
  | nil => rfl
  | cons a l ih =>
    by_cases ha : a = old
    · subst ha
      have h0 : l.count a = 0 := by
        have := List.count_cons_self a l
        omega
      have hnotin : a ∉ l := List.count_eq_zero.mp h0
      have hmap : l.map (renameOcc a nw) = l := by
        have hpt : ∀ x ∈ l, renameOcc a nw x = id x := by
          intro x hx
          have hxa : x ≠ a := fun he => hnotin (he ▸ hx)
          simp [renameOcc, hxa]
        rw [List.map_congr_left hpt, List.map_id]
      simp [setFirstOcc, renameOcc, hmap]
    · have h2 : l.count old ≤ 1 := by
        have := List.count_cons_of_ne (fun he => ha he.symm) l
        omega
      simp [setFirstOcc, ha, renameOcc, ih h2]

theorem mongoPull_eq_self {l : List String} {u : String} (h : u ∉ l) :
    mongoPull l u = l := by
  rw [mongoPull, List.filter_eq_self]
  intro a ha
  have : a ≠ u := fun he => h (he ▸ ha)
  simpa using this

theorem mongoPull_append_self {l : List String} {u : String} (h : u ∉ l) :
    mongoPull (l ++ [u]) u = l := by
  rw [mongoPull, List.filter_append]
  have h1 : List.filter (fun x => x != u) l = l := mongoPull_eq_self h
  simp [h1]

theorem count_mongoAddToSet {l : List String} {u : String} (h : l.count u ≤ 1) :
    (mongoAddToSet l u).count u = 1 := by
  by_cases hu : u ∈ l
  · have h1 : 0 < l.count u := List.count_pos_iff.mpr hu
    simp only [mongoAddToSet, hu, if_pos]
    omega
  · have h0 : l.count u = 0 := List.count_eq_zero.mpr hu
    simp [mongoAddToSet, hu, h0]

theorem mem_mongoAddToSet (l : List String) (u : String) :
    u ∈ mongoAddToSet l u := by
  by_cases hu : u ∈ l <;> simp [mongoAddToSet, hu]

theorem mongoAddToSet_idem (l : List String) (u : String) :
    mongoAddToSet (mongoAddToSet l u) u = mongoAddToSet l u := by
  rw [mongoAddToSet, if_pos (mem_mongoAddToSet l u)]

theorem nodup_mongoPull {l : List String} (h : l.Nodup) (u : String) :
    (mongoPull l u).Nodup :=
  h.filter _

theorem nodup_mongoAddToSet {l : List String} (h : l.Nodup) (u : String) :
    (mongoAddToSet l u).Nodup := by
  by_cases hu : u ∈ l
  · simpa [mongoAddToSet, hu] using h
  · simp [mongoAddToSet, hu, List.nodup_append, h]

theorem nodup_mongoPush {l : List String} (h : l.Nodup) {u : String} (hu : u ∉ l) :
    (mongoPush l u).Nodup := by
  simp [mongoPush, List.nodup_append, h, hu]

theorem Backend.findPost_updatePost (posts : List Backend.Post) (pid : String)
    (f : Backend.Post → Backend.Post) (hf : ∀ p, (f p).id = p.id) :
    Backend.findPost (Backend.updatePost posts pid f) pid =
      (Backend.findPost posts pid).map f :=
  find?_updateFirst _ f posts (fun a => by simp [hf a])

theorem Backend.findUser_updateUser (users : List Backend.User) (uname : String)
    (f : Backend.User → Backend.User) (hf : ∀ u, (f u).username = u.username) :
    Backend.findUser (Backend.updateUser users uname f) uname =
      (Backend.findUser users uname).map f :=
  find?_updateFirst _ f users (fun a => by simp [hf a])

theorem Backend.findUser_updateUser_ne (users : List Backend.User) (n m : String)
    (f : Backend.User → Backend.User) (hf : ∀ u, (f u).username = u.username)
    (hne : n ≠ m) :
    Backend.findUser (Backend.updateUser users n f) m = Backend.findUser users m := by
  refine find?_updateFirst_of_disj _ _ f users (fun a => by simp [hf a]) ?_
  intro a ha
  have h1 : a.username = n := by simpa using ha
  simp [h1, hne]

theorem Cookie.findPost_updatePost_cookie (posts : List Cookie.Post) (pid : String)
    (f : Cookie.Post → Cookie.Post) (hf : ∀ p, (f p).id = p.id) :
    Cookie.findPost (Cookie.updatePost posts pid f) pid =
      (Cookie.findPost posts pid).map f :=
  find?_updateFirst _ f posts (fun a => by simp [hf a])



theorem Backend.like_post_posts_not_mem (db : Backend.DB) (u pid : String)
    (rf : Bool) (p : Backend.Post) (hp : Backend.findPost db.posts pid = some p)
    (hm : u ∉ p.likes) :
    (Backend.like_post db (some u) pid rf).2.posts =
      Backend.updatePost db.posts pid (fun q => { q with likes := mongoAddToSet q.likes u }) := by
  simp [Backend.like_post, hp, hm]

theorem Backend.like_post_posts_mem (db : Backend.DB) (u pid : String)
    (rf : Bool) (p : Backend.Post) (hp : Backend.findPost db.posts pid = some p)
    (hm : u ∈ p.likes) :
    (Backend.like_post db (some u) pid rf).2.posts =
      Backend.updatePost db.posts pid (fun q => { q with likes := mongoPull q.likes u }) := by
  simp [Backend.like_post, hp, hm]

theorem Backend.like_post_users (db : Backend.DB) (s : Option String) (pid : String) (rf : Bool) :
    (Backend.like_post db s pid rf).2.users = db.users := by
  unfold Backend.like_post
  cases s with
  | none => rfl
  | some u =>
    cases hp : Backend.findPost db.posts pid with
    | none => rfl
    | some p => by_cases hm : u ∈ p.likes <;> simp [hm]

theorem Cookie.like_post_posts_not_mem_cookie (db : Cookie.DB) (c : Option String)
    (usr : Cookie.User) (hu : Cookie.get_current_user db c = some usr)
    (pid : String) (p : Cookie.Post) (hp : Cookie.findPost db.posts pid = some p)
    (hm : usr.username ∉ p.likes) :
    (Cookie.like_post db c pid).2.posts =
      Cookie.updatePost db.posts pid (fun q => { q with likes := mongoPush q.likes usr.username }) := by
  simp [Cookie.like_post, hu, hp, hm]

theorem Cookie.like_post_posts_mem_cookie (db : Cookie.DB) (c : Option String)
    (usr : Cookie.User) (hu : Cookie.get_current_user db c = some usr)
    (pid : String) (p : Cookie.Post) (hp : Cookie.findPost db.posts pid = some p)
    (hm : usr.username ∈ p.likes) :
    (Cookie.like_post db c pid).2.posts =
      Cookie.updatePost db.posts pid (fun q => { q with likes := mongoPull q.likes usr.username }) := by
  simp [Cookie.like_post, hu, hp, hm]

theorem Cookie.like_post_users_cookie (db : Cookie.DB) (c : Option String) (pid : String) :
    (Cookie.like_post db c pid).2.users = db.users := by
  unfold Cookie.like_post
  cases h : Cookie.get_current_user db c with
  | none => rfl
  | some user =>
    cases hp : Cookie.findPost db.posts pid with
    | none => rfl
    | some p => by_cases hm : user.username ∈ p.likes <;> simp [hm]

/-! ## Claim theorems -/

/-- Claim C2: for a post whose likes array does not yet carry the
logged-in user, applying the like operation twice in succession by that
user leaves the likes array of the post equal to its original value, in
both duplicate implementations; the first call adds the username (absent
at the start) and the second call, with the username now present,
removes it. -/
theorem C2_like_twice_roundtrip
    (dbb : Backend.DB) (dbc : Cookie.DB) (u pid : String) (rf1 rf2 : Bool)
    (pB : Backend.Post) (hB : Backend.findPost dbb.posts pid = some pB)
    (huB : u ∉ pB.likes)
    (usr : Cookie.User) (hCu : Cookie.get_current_user dbc (some u) = some usr)
    (pC : Cookie.Post) (hC : Cookie.findPost dbc.posts pid = some pC)
    (huC : usr.username ∉ pC.likes) :
    (∃ p2 : Backend.Post,
      Backend.findPost ((Backend.like_post ((Backend.like_post dbb (some u) pid rf1).2) (some u) pid rf2).2).posts pid = some p2 ∧
      p2.likes = pB.likes) ∧
    (∃ q2 : Cookie.Post,
      Cookie.findPost ((Cookie.like_post ((Cookie.like_post dbc (some u) pid).2) (some u) pid).2).posts pid = some q2 ∧
      q2.likes = pC.likes) := by
  constructor
  · have e1 := Backend.like_post_posts_not_mem dbb u pid rf1 pB hB huB
    have e2 : Backend.findPost (Backend.like_post dbb (some u) pid rf1).2.posts pid =
        some { pB with likes := mongoAddToSet pB.likes u } := by
      rw [e1,
        Backend.findPost_updatePost _ _ (fun q => { q with likes := mongoAddToSet q.likes u }) (fun q => rfl),
        hB]
      rfl
    have e3 := Backend.like_post_posts_mem (Backend.like_post dbb (some u) pid rf1).2
      u pid rf2 { pB with likes := mongoAddToSet pB.likes u } e2 (mem_mongoAddToSet pB.likes u)
    refine ⟨{ pB with likes := mongoPull (mongoAddToSet pB.likes u) u }, ?_, ?_⟩
    · rw [e3,
        Backend.findPost_updatePost _ _ (fun q => { q with likes := mongoPull q.likes u }) (fun q => rfl),
        e2]
      rfl
    · show mongoPull (mongoAddToSet pB.likes u) u = pB.likes
      rw [mongoAddToSet, if_neg huB]
      exact mongoPull_append_self huB
  · have e1 := Cookie.like_post_posts_not_mem_cookie dbc (some u) usr hCu pid pC hC huC
    have eu : Cookie.get_current_user (Cookie.like_post dbc (some u) pid).2 (some u) = some usr := by
      have husers := Cookie.like_post_users_cookie dbc (some u) pid
      simpa [Cookie.get_current_user, husers] using hCu
    have e2 : Cookie.findPost (Cookie.like_post dbc (some u) pid).2.posts pid =
        some { pC with likes := mongoPush pC.likes usr.username } := by
      rw [e1,
        Cookie.findPost_updatePost_cookie _ _ (fun q => { q with likes := mongoPush q.likes usr.username }) (fun q => rfl),
        hC]
      rfl
    have hmem : usr.username ∈ mongoPush pC.likes usr.username := by
      simp [mongoPush]
    have e3 := Cookie.like_post_posts_mem_cookie (Cookie.like_post dbc (some u) pid).2
      (some u) usr eu pid { pC with likes := mongoPush pC.likes usr.username } e2 hmem
    refine ⟨{ pC with likes := mongoPull (mongoPush pC.likes usr.username) usr.username }, ?_, ?_⟩
    · rw [e3,
        Cookie.findPost_updatePost_cookie _ _ (fun q => { q with likes := mongoPull q.likes usr.username }) (fun q => rfl),
        e2]
      rfl
    · show mongoPull (mongoPush pC.likes usr.username) usr.username = pC.likes
      rw [mongoPush]
      exact mongoPull_append_self huC

/-- Witness for claim C2 at a concrete store: alice double-likes post p1
in both implementations. -/
theorem C2_like_twice_roundtrip_witness :
    (Backend.findPost dbB.posts "p1" = some pOne ∧ "alice" ∉ pOne.likes ∧
     Cookie.get_current_user dbC (some "alice") = some cAlice ∧
     Cookie.findPost dbC.posts "p1" = some cpOne ∧ cAlice.username ∉ cpOne.likes) ∧
    ((∃ p2 : Backend.Post,
      Backend.findPost ((Backend.like_post ((Backend.like_post dbB (some "alice") "p1" true).2) (some "alice") "p1" true).2).posts "p1" = some p2 ∧
      p2.likes = pOne.likes) ∧
    (∃ q2 : Cookie.Post,
      Cookie.findPost ((Cookie.like_post ((Cookie.like_post dbC (some "alice") "p1").2) (some "alice") "p1").2).posts "p1" = some q2 ∧
      q2.likes = cpOne.likes)) :=
  ⟨⟨by decide, by decide, by decide, by decide, by decide⟩,
   C2_like_twice_roundtrip dbB dbC "alice" "p1" true true pOne (by decide) (by decide)
     cAlice (by decide) cpOne (by decide) (by decide)⟩

/-- Claim C3 is a code bug: admin_delete_user issues delete_many on the
posts collection with the filter author equal to the user_id path
parameter (the ObjectId hex string), not the username of the deleted
user, so the cascade never matches an authored post.  At this store the
admin deletes the user with id u1 (username alice); the user document is
removed, but the post authored by alice survives. -/
theorem C3_admin_delete_user_no_cascade :
    ((Backend.admin_delete_user { users := [uAlice], posts := [pOne] } (some "admintok") "u1").2.users = [] ∧
     (Backend.admin_delete_user { users := [uAlice], posts := [pOne] } (some "admintok") "u1").2.posts = [pOne] ∧
     pOne.author = uAlice.username) := by
  decide

/-- Claim C4: a registration request whose username or email already
belongs to an existing user inserts nothing (the store is unchanged) and
re-renders the registration form with an inline error message and the
submitted username and email. -/
theorem C4_register_duplicate_rejected
    (db : Backend.DB) (newId username email password : String) (now : Nat)
    (hdup : ∃ u ∈ db.users, u.username = username ∨ u.email = email) :
    (Backend.register db newId username email password now).2 = db ∧
    ∃ msg, (Backend.register db newId username email password now).1 =
      Resp.renderRegister msg username email := by
  obtain ⟨u0, hu0, hor⟩ := hdup
  have hnone : db.users.find? (fun u => u.username == username || u.email == email) ≠ none := by
    intro hnone
    have := List.find?_eq_none.mp hnone u0 hu0
    rcases hor with h | h <;> simp [h] at this
  obtain ⟨ex, hex⟩ := Option.ne_none_iff_exists'.mp hnone
  refine ⟨by simp [Backend.register, hex],
    ⟨if ex.username = username then
      "Username already taken. Please choose a different username."
    else
      "Email already registered. Please use a different email or login.",
     by simp [Backend.register, hex]⟩⟩

/-- Witness for claim C4: registering again with the taken username
alice. -/
theorem C4_register_duplicate_rejected_witness :
    (∃ u ∈ dbB.users, u.username = "alice" ∨ u.email = "new@mail.com") ∧
    ((Backend.register dbB "u9" "alice" "new@mail.com" "pw" 3).2 = dbB ∧
     ∃ msg, (Backend.register dbB "u9" "alice" "new@mail.com" "pw" 3).1 =
       Resp.renderRegister msg "alice" "new@mail.com") :=
  ⟨⟨uAlice, by decide, by decide⟩,
   C4_register_duplicate_rejected dbB "u9" "alice" "new@mail.com" "pw" 3
     ⟨uAlice, by decide, by decide⟩⟩

/-- Claim C5: a logged-in user who is not the author of an existing post
gets a 403 from both the post-edit and the post-delete operation, and
the store is unchanged (so the post keeps its content and is not
removed); this holds in both duplicate implementations. -/
theorem C5_edit_delete_forbidden
    (dbb : Backend.DB) (dbc : Cookie.DB) (u pid content : String)
    (pB : Backend.Post) (hB : Backend.findPost dbb.posts pid = some pB)
    (hneB : pB.author ≠ u)
    (usr : Cookie.User) (hCu : Cookie.get_current_user dbc (some u) = some usr)
    (pC : Cookie.Post) (hC : Cookie.findPost dbc.posts pid = some pC)
    (hneC : pC.author ≠ usr.username) :
    Backend.edit_post dbb (some u) pid content =
      (Resp.httpError 403 "You are not authorized to edit this post", dbb) ∧
    Backend.delete_post dbb (some u) pid =
      (Resp.httpError 403 "You are not authorized to delete this post", dbb) ∧
    Cookie.edit_post dbc (some u) pid content =
      (Resp.httpError 403 "You can only edit your own posts", dbc) ∧
    Cookie.delete_post dbc (some u) pid =
      (Resp.httpError 403 "You can only delete your own posts", dbc) := by
  have hneC2 : usr.username ≠ pC.author := fun h => hneC h.symm
  refine ⟨?_, ?_, ?_, ?_⟩
  · simp [Backend.edit_post, hB, hneB]
  · simp [Backend.delete_post, hB, hneB]
  · simp [Cookie.edit_post, hCu, hC, hneC2]
  · simp [Cookie.delete_post, hCu, hC, hneC2]

/-- Witness for claim C5: bob tries to edit and delete post p1 authored
by alice in both implementations. -/
theorem C5_edit_delete_forbidden_witness :
    (Backend.findPost dbB.posts "p1" = some pOne ∧ pOne.author ≠ "bob" ∧
     Cookie.get_current_user dbC (some "bob") = some cBob ∧
     Cookie.findPost dbC.posts "p1" = some cpOne ∧ cpOne.author ≠ cBob.username) ∧
    (Backend.edit_post dbB (some "bob") "p1" "hacked" =
      (Resp.httpError 403 "You are not authorized to edit this post", dbB) ∧
    Backend.delete_post dbB (some "bob") "p1" =
      (Resp.httpError 403 "You are not authorized to delete this post", dbB) ∧
    Cookie.edit_post dbC (some "bob") "p1" "hacked" =
      (Resp.httpError 403 "You can only edit your own posts", dbC) ∧
    Cookie.delete_post dbC (some "bob") "p1" =
      (Resp.httpError 403 "You can only delete your own posts", dbC)) :=
  ⟨⟨by decide, by decide, by decide, by decide, by decide⟩,
   C5_edit_delete_forbidden dbB dbC "bob" "p1" "hacked" pOne (by decide) (by decide)
     cBob (by decide) cpOne (by decide) (by decide)⟩

/-- Counterexample to claim C6: in the token implementation a
state-changing request with a missing session does not redirect to the
login page; create_post raises HTTPException 401. -/
theorem C6_missing_session_not_uniform_counterexample :
    ((Backend.create_post { users := [], posts := [] } none "hello" none "p9" 0).1 =
      Resp.httpError 401 "Not authenticated" ∧
     (Backend.create_post { users := [], posts := [] } none "hello" none "p9" 0).1 ≠
      Resp.redirect "/login" 303 ∧
     (Backend.create_post { users := [], posts := [] } none "hello" none "p9" 0).1 ≠
      Resp.redirect "/login" 307) := by
  decide

/-- Claim C6 as amended: a request whose session cookie is absent (or
whose token does not decode to a user) modifies no database state, and
the response is a redirect to the login page only for the page-rendering
handlers (feed) and the mutating handlers of the cookie implementation
(create, like, comment); the mutating handlers of the token
implementation raise HTTPException 401, and the cookie-implementation
edit and delete handlers raise 403. -/
theorem C6_missing_session_amended
    (dbb : Backend.DB) (dbc : Cookie.DB) (pid content text ct url nid : String)
    (img photo : Option String) (now y : Nat) (rf : Bool) (em pw : Option String)
    (filt : Option String) :
    Backend.feed dbb none filt y = Backend.FeedResult.redirectLogin ∧
    Backend.create_post dbb none content img nid now = (Resp.httpError 401 "Not authenticated", dbb) ∧
    Backend.like_post dbb none pid rf = (Resp.httpError 401 "Not authenticated", dbb) ∧
    Backend.add_comment dbb none pid text now = (Resp.httpError 401 "Not authenticated", dbb) ∧
    Backend.edit_post dbb none pid content = (Resp.httpError 401 "Not authenticated", dbb) ∧
    Backend.delete_post dbb none pid = (Resp.httpError 401 "Not authenticated", dbb) ∧
    Backend.follow_user dbb none pid = (Resp.httpError 401 "Not authenticated", dbb) ∧
    Backend.unfollow_user dbb none pid = (Resp.httpError 401 "Not authenticated", dbb) ∧
    Backend.upload_profile_picture dbb none ct url = (Resp.httpError 401 "Not authenticated", none, dbb) ∧
    Backend.edit_profile dbb none content em pw = (Resp.httpError 401 "Not authenticated", dbb) ∧
    Cookie.create_post dbc none content photo nid = (Resp.redirect "/login" 303, dbc) ∧
    Cookie.like_post dbc none pid = (Resp.redirect "/login" 303, dbc) ∧
    Cookie.comment_on_post dbc none pid text = (Resp.redirect "/login" 303, dbc) ∧
    Cookie.edit_post dbc none pid content = (Resp.httpError 403 "You can only edit your own posts", dbc) ∧
    Cookie.delete_post dbc none pid = (Resp.httpError 403 "You can only delete your own posts", dbc) := by
  refine ⟨rfl, rfl, rfl, rfl, rfl, rfl, rfl, rfl, rfl, rfl, ?_, ?_, ?_, ?_, ?_⟩ <;>
    simp [Cookie.create_post, Cookie.like_post, Cookie.comment_on_post,
      Cookie.edit_post, Cookie.delete_post, Cookie.get_current_user]

/-- Claim C7: a logged-in upload to the profile-picture endpoint with a
content type outside the allowed image types fails with 400, writes no
file, and leaves the store (hence the profile_pic field) unchanged. -/
theorem C7_upload_bad_content_type
    (db : Backend.DB) (u ct url : String) (hct : ct ∉ Backend.allowed_types) :
    Backend.upload_profile_picture db (some u) ct url =
      (Resp.httpError 400 "Invalid file type. Only images allowed.", none, db) := by
  simp [Backend.upload_profile_picture, hct]

/-- Witness for claim C7: alice uploads a text/plain file. -/
theorem C7_upload_bad_content_type_witness :
    "text/plain" ∉ Backend.allowed_types ∧
    Backend.upload_profile_picture dbB (some "alice") "text/plain" "/static/uploads/profiles/x.png" =
      (Resp.httpError 400 "Invalid file type. Only images allowed.", none, dbB) :=
  ⟨by decide,
   C7_upload_bad_content_type dbB "alice" "text/plain" "/static/uploads/profiles/x.png" (by decide)⟩

theorem Backend.follow_user_users_eq (db : Backend.DB) (cu target : String)
    (hne : cu ≠ target) :
    (Backend.follow_user db (some cu) target).2.users =
      Backend.updateUser
        (Backend.updateUser db.users cu (fun u => { u with following := mongoAddToSet u.following target }))
        target (fun u => { u with followers := mongoAddToSet u.followers cu }) := by
  simp [Backend.follow_user, hne]

theorem Backend.follow_user_findUser_cu (db : Backend.DB) (cu target : String)
    (hne : cu ≠ target) (ucu : Backend.User)
    (hcu : Backend.findUser db.users cu = some ucu) :
    Backend.findUser (Backend.follow_user db (some cu) target).2.users cu =
      some { ucu with following := mongoAddToSet ucu.following target } := by
  rw [Backend.follow_user_users_eq db cu target hne,
    Backend.findUser_updateUser_ne _ target cu
      (fun u => { u with followers := mongoAddToSet u.followers cu })
      (fun u => rfl) (fun h => hne h.symm),
    Backend.findUser_updateUser _ cu
      (fun u => { u with following := mongoAddToSet u.following target })
      (fun u => rfl),
    hcu]
  rfl

theorem Backend.follow_user_findUser_target (db : Backend.DB) (cu target : String)
    (hne : cu ≠ target) (ut : Backend.User)
    (ht : Backend.findUser db.users target = some ut) :
    Backend.findUser (Backend.follow_user db (some cu) target).2.users target =
      some { ut with followers := mongoAddToSet ut.followers cu } := by
  rw [Backend.follow_user_users_eq db cu target hne,
    Backend.findUser_updateUser _ target
      (fun u => { u with followers := mongoAddToSet u.followers cu })
      (fun u => rfl),
    Backend.findUser_updateUser_ne _ cu target
      (fun u => { u with following := mongoAddToSet u.following target })
      (fun u => rfl) hne,
    ht]
  rfl

theorem followN_findUser (db : Backend.DB) (cu target : String)
    (hne : cu ≠ target) (ucu ut : Backend.User)
    (hcu : Backend.findUser db.users cu = some ucu)
    (ht : Backend.findUser db.users target = some ut) (n : Nat) :
    Backend.findUser (followN db cu target (n + 1)).users cu =
      some { ucu with following := mongoAddToSet ucu.following target } ∧
    Backend.findUser (followN db cu target (n + 1)).users target =
      some { ut with followers := mongoAddToSet ut.followers cu } := by
  induction n with
  | zero =>
    exact ⟨Backend.follow_user_findUser_cu db cu target hne ucu hcu,
      Backend.follow_user_findUser_target db cu target hne ut ht⟩
  | succ n ih =>
    obtain ⟨h1, h2⟩ := ih
    constructor
    · show Backend.findUser (Backend.follow_user (followN db cu target (n + 1)) (some cu) target).2.users cu = _
      rw [Backend.follow_user_findUser_cu _ cu target hne _ h1]
      simp [mongoAddToSet_idem]
    · show Backend.findUser (Backend.follow_user (followN db cu target (n + 1)) (some cu) target).2.users target = _
      rw [Backend.follow_user_findUser_target _ cu target hne _ h2]
      simp [mongoAddToSet_idem]

/-- Claim C8 as amended: following yourself fails with 400 and changes
nothing; following a distinct existing target is idempotent: after one
or more follow calls the target occurs exactly once in the following
array of the session user, and the session user exactly once in the
followers array of the target — provided each occurs at most once
beforehand.  Stores with a duplicated array entry are reachable (a
rename onto a name already present in an array duplicates it), and
there addToSet keeps both occurrences, so the occurrence bound is
needed. -/
theorem C8_follow_self_and_idempotent
    (db : Backend.DB) (cu target : String) (n : Nat) (hne : cu ≠ target)
    (ucu : Backend.User) (hcu : Backend.findUser db.users cu = some ucu)
    (h1 : ucu.following.count target ≤ 1)
    (ut : Backend.User) (ht : Backend.findUser db.users target = some ut)
    (h2 : ut.followers.count cu ≤ 1) :
    Backend.follow_user db (some cu) cu = (Resp.httpError 400 "Cannot follow yourself", db) ∧
    (∃ u2, Backend.findUser (followN db cu target (n + 1)).users cu = some u2 ∧
      u2.following.count target = 1) ∧
    (∃ u3, Backend.findUser (followN db cu target (n + 1)).users target = some u3 ∧
      u3.followers.count cu = 1) := by
  obtain ⟨e1, e2⟩ := followN_findUser db cu target hne ucu ut hcu ht n
  exact ⟨by simp [Backend.follow_user],
    ⟨_, e1, count_mongoAddToSet h1⟩,
    ⟨_, e2, count_mongoAddToSet h2⟩⟩

/-- Witness for claim C8: alice follows bob twice starting from the
concrete store. -/
theorem C8_follow_self_and_idempotent_witness :
    ("alice" ≠ "bob" ∧
     Backend.findUser dbB.users "alice" = some uAlice ∧
     uAlice.following.count "bob" ≤ 1 ∧
     Backend.findUser dbB.users "bob" = some uBob ∧
     uBob.followers.count "alice" ≤ 1) ∧
    (Backend.follow_user dbB (some "alice") "alice" =
      (Resp.httpError 400 "Cannot follow yourself", dbB) ∧
    (∃ u2, Backend.findUser (followN dbB "alice" "bob" (1 + 1)).users "alice" = some u2 ∧
      u2.following.count "bob" = 1) ∧
    (∃ u3, Backend.findUser (followN dbB "alice" "bob" (1 + 1)).users "bob" = some u3 ∧
      u3.followers.count "alice" = 1)) :=
  ⟨⟨by decide, by decide, by decide, by decide, by decide⟩,
   C8_follow_self_and_idempotent dbB "alice" "bob" 1 (by decide) uAlice (by decide)
     (by decide) uBob (by decide) (by decide)⟩

theorem likesNodup_updateFirst_backend (posts : List Backend.Post)
    (pred : Backend.Post → Bool) (f : Backend.Post → Backend.Post)
    (h : ∀ p ∈ posts, p.likes.Nodup)
    (hf : ∀ p ∈ posts, p.likes.Nodup → (f p).likes.Nodup) :
    ∀ p ∈ updateFirst pred f posts, p.likes.Nodup := by
  intro p hp
  rcases mem_updateFirst hp with h1 | ⟨b, hb, rfl⟩
  · exact h p h1
  · exact hf b hb (h b hb)

theorem likesNodup_updateFirst_cookie (posts : List Cookie.Post)
    (pred : Cookie.Post → Bool) (f : Cookie.Post → Cookie.Post)
    (h : ∀ p ∈ posts, p.likes.Nodup)
    (hf : ∀ p ∈ posts, p.likes.Nodup → (f p).likes.Nodup) :
    ∀ p ∈ updateFirst pred f posts, p.likes.Nodup := by
  intro p hp
  rcases mem_updateFirst hp with h1 | ⟨b, hb, rfl⟩
  · exact h p h1
  · exact hf b hb (h b hb)

theorem Backend.like_post_likesNodup (db : Backend.DB) (s : Option String)
    (pid : String) (rf : Bool) (h : Backend.likesNodup db) :
    Backend.likesNodup (Backend.like_post db s pid rf).2 := by
  cases s with
  | none => exact h
  | some u =>
    cases hp : Backend.findPost db.posts pid with
    | none =>
      intro q hq
      simp only [Backend.like_post, hp] at hq
      exact h q hq
    | some p =>
      by_cases hm : u ∈ p.likes
      · intro q hq
        rw [Backend.like_post_posts_mem db u pid rf p hp hm] at hq
        exact likesNodup_updateFirst_backend db.posts _ _ h
          (fun r _ hnd => nodup_mongoPull hnd u) q hq
      · intro q hq
        rw [Backend.like_post_posts_not_mem db u pid rf p hp hm] at hq
        exact likesNodup_updateFirst_backend db.posts _ _ h
          (fun r _ hnd => nodup_mongoAddToSet hnd u) q hq

theorem Backend.add_comment_likesNodup (db : Backend.DB) (s : Option String)
    (pid text : String) (now : Nat) (h : Backend.likesNodup db) :
    Backend.likesNodup (Backend.add_comment db s pid text now).2 := by
  cases s with
  | none => exact h
  | some u =>
    intro q hq
    simp only [Backend.add_comment] at hq
    exact likesNodup_updateFirst_backend db.posts _
      (fun p => { p with comments := p.comments ++ [{ username := u, text := text, timestamp := now }] })
      h (fun r _ hnd => hnd) q hq

theorem Backend.edit_post_likesNodup (db : Backend.DB) (s : Option String)
    (pid content : String) (h : Backend.likesNodup db) :
    Backend.likesNodup (Backend.edit_post db s pid content).2 := by
  cases s with
  | none => exact h
  | some u =>
    cases hp : Backend.findPost db.posts pid with
    | none =>
      intro q hq
      simp only [Backend.edit_post, hp] at hq
      exact h q hq
    | some p =>
      by_cases ha : p.author ≠ u
      · intro q hq
        simp only [Backend.edit_post, hp, if_pos ha] at hq
        exact h q hq
      · intro q hq
        simp only [Backend.edit_post, hp, if_neg ha] at hq
        exact likesNodup_updateFirst_backend db.posts _
          (fun p => { p with content := content }) h (fun r _ hnd => hnd) q hq

theorem Backend.delete_post_likesNodup (db : Backend.DB) (s : Option String)
    (pid : String) (h : Backend.likesNodup db) :
    Backend.likesNodup (Backend.delete_post db s pid).2 := by
  cases s with
  | none => exact h
  | some u =>
    cases hp : Backend.findPost db.posts pid with
    | none =>
      intro q hq
      simp only [Backend.delete_post, hp] at hq
      exact h q hq
    | some p =>
      by_cases ha : p.author ≠ u
      · intro q hq
        simp only [Backend.delete_post, hp, if_pos ha] at hq
        exact h q hq
      · intro q hq
        simp only [Backend.delete_post, hp, if_neg ha] at hq
        exact h q ((List.eraseP_sublist db.posts).subset hq)

theorem Backend.create_post_likesNodup (db : Backend.DB) (s : Option String)
    (content : String) (img : Option String) (nid : String) (now : Nat)
    (h : Backend.likesNodup db) :
    Backend.likesNodup (Backend.create_post db s content img nid now).2 := by
  cases s with
  | none => exact h
  | some u =>
    intro q hq
    simp only [Backend.create_post, List.mem_append, List.mem_singleton] at hq
    rcases hq with hq | rfl
    · exact h q hq
    · exact List.nodup_nil

theorem mem_updateFirst_find? {p : α → Bool} {f : α → α} {l : List α} {x a : α}
    (hfind : l.find? p = some a) (hx : x ∈ updateFirst p f l) :
    x ∈ l ∨ x = f a := by
  induction l with
  | nil => simp [updateFirst] at hx
  | cons b l ih =>
    by_cases hb : p b
    · rw [List.find?_cons_of_pos _ hb] at hfind
      injection hfind with hba
      subst hba
      simp only [updateFirst, hb, if_pos, List.mem_cons] at hx
      rcases hx with rfl | hx
      · exact Or.inr rfl
      · exact Or.inl (by simp [hx])
    · rw [List.find?_cons_of_neg _ hb] at hfind
      simp [updateFirst, hb] at hx
      rcases hx with rfl | hx
      · exact Or.inl (by simp)
      · rcases ih hfind hx with h1 | h1
        · exact Or.inl (by simp [h1])
        · exact Or.inr h1

theorem Cookie.like_post_likesNodup_cookie (db : Cookie.DB) (c : Option String)
    (pid : String) (h : Cookie.likesNodup db) :
    Cookie.likesNodup (Cookie.like_post db c pid).2 := by
  cases hu : Cookie.get_current_user db c with
  | none =>
    intro q hq
    simp only [Cookie.like_post, hu] at hq
    exact h q hq
  | some usr =>
    cases hp : Cookie.findPost db.posts pid with
    | none =>
      intro q hq
      simp only [Cookie.like_post, hu, hp] at hq
      exact h q hq
    | some p =>
      by_cases hm : usr.username ∈ p.likes
      · intro q hq
        rw [Cookie.like_post_posts_mem_cookie db c usr hu pid p hp hm] at hq
        exact likesNodup_updateFirst_cookie db.posts _ _ h
          (fun r _ hnd => nodup_mongoPull hnd usr.username) q hq
      · intro q hq
        rw [Cookie.like_post_posts_not_mem_cookie db c usr hu pid p hp hm] at hq
        rcases mem_updateFirst_find? hp hq with h1 | heq
        · exact h q h1
        · rw [heq]
          exact nodup_mongoPush (h p (List.mem_of_find?_eq_some hp)) hm

theorem Cookie.comment_on_post_likesNodup (db : Cookie.DB) (c : Option String)
    (pid text : String) (h : Cookie.likesNodup db) :
    Cookie.likesNodup (Cookie.comment_on_post db c pid text).2 := by
  cases hu : Cookie.get_current_user db c with
  | none =>
    intro q hq
    simp only [Cookie.comment_on_post, hu] at hq
    exact h q hq
  | some usr =>
    intro q hq
    simp only [Cookie.comment_on_post, hu] at hq
    exact likesNodup_updateFirst_cookie db.posts _
      (fun p => { p with comments := p.comments ++ [{ author := usr.username, text := text }] })
      h (fun r _ hnd => hnd) q hq

theorem Cookie.edit_post_likesNodup_cookie (db : Cookie.DB) (c : Option String)
    (pid content : String) (h : Cookie.likesNodup db) :
    Cookie.likesNodup (Cookie.edit_post db c pid content).2 := by
  cases hu : Cookie.get_current_user db c with
  | none =>
    intro q hq
    simp only [Cookie.edit_post, hu] at hq
    exact h q hq
  | some usr =>
    cases hp : Cookie.findPost db.posts pid with
    | none =>
      intro q hq
      simp only [Cookie.edit_post, hu, hp] at hq
      exact h q hq
    | some p =>
      by_cases ha : usr.username ≠ p.author
      · intro q hq
        simp only [Cookie.edit_post, hu, hp, if_pos ha] at hq
        exact h q hq
      · intro q hq
        simp only [Cookie.edit_post, hu, hp, if_neg ha] at hq
        exact likesNodup_updateFirst_cookie db.posts _
          (fun q => { q with content := content }) h (fun r _ hnd => hnd) q hq

theorem Cookie.delete_post_likesNodup_cookie (db : Cookie.DB) (c : Option String)
    (pid : String) (h : Cookie.likesNodup db) :
    Cookie.likesNodup (Cookie.delete_post db c pid).2 := by
  cases hu : Cookie.get_current_user db c with
  | none =>
    intro q hq
    simp only [Cookie.delete_post, hu] at hq
    exact h q hq
  | some usr =>
    cases hp : Cookie.findPost db.posts pid with
    | none =>
      intro q hq
      simp only [Cookie.delete_post, hu, hp] at hq
      exact h q hq
    | some p =>
      by_cases ha : usr.username ≠ p.author
      · intro q hq
        simp only [Cookie.delete_post, hu, hp, if_pos ha] at hq
        exact h q hq
      · intro q hq
        simp only [Cookie.delete_post, hu, hp, if_neg ha] at hq
        exact h q ((List.eraseP_sublist db.posts).subset hq)

theorem Cookie.create_post_likesNodup_cookie (db : Cookie.DB) (c : Option String)
    (content : String) (photo : Option String) (nid : String)
    (h : Cookie.likesNodup db) :
    Cookie.likesNodup (Cookie.create_post db c content photo nid).2 := by
  cases hu : Cookie.get_current_user db c with
  | none =>
    intro q hq
    simp only [Cookie.create_post, hu] at hq
    exact h q hq
  | some usr =>
    intro q hq
    simp only [Cookie.create_post, hu, List.mem_append, List.mem_singleton] at hq
    rcases hq with hq | rfl
    · exact h q hq
    · exact List.nodup_nil

/-- Claim C9: starting from a store in which no likes array holds
duplicate usernames, every operation of either implementation (the
like/unlike toggle, comment append, edit, delete, create) preserves that
property, and newly created posts start with an empty likes array. -/
theorem C9_likes_nodup_invariant
    (dbb : Backend.DB) (dbc : Cookie.DB) (s c : Option String)
    (u pid content text nid : String) (img photo : Option String)
    (now : Nat) (rf : Bool)
    (hB : Backend.likesNodup dbb) (hC : Cookie.likesNodup dbc) :
    Backend.likesNodup (Backend.like_post dbb s pid rf).2 ∧
    Backend.likesNodup (Backend.add_comment dbb s pid text now).2 ∧
    Backend.likesNodup (Backend.edit_post dbb s pid content).2 ∧
    Backend.likesNodup (Backend.delete_post dbb s pid).2 ∧
    Backend.likesNodup (Backend.create_post dbb s content img nid now).2 ∧
    (∃ newPost, (Backend.create_post dbb (some u) content img nid now).2.posts =
      dbb.posts ++ [newPost] ∧ newPost.likes = []) ∧
    Cookie.likesNodup (Cookie.like_post dbc c pid).2 ∧
    Cookie.likesNodup (Cookie.comment_on_post dbc c pid text).2 ∧
    Cookie.likesNodup (Cookie.edit_post dbc c pid content).2 ∧
    Cookie.likesNodup (Cookie.delete_post dbc c pid).2 ∧
    Cookie.likesNodup (Cookie.create_post dbc c content photo nid).2 ∧
    (∀ usr, Cookie.get_current_user dbc c = some usr →
      ∃ newPost, (Cookie.create_post dbc c content photo nid).2.posts =
        dbc.posts ++ [newPost] ∧ newPost.likes = []) := by
  refine ⟨Backend.like_post_likesNodup dbb s pid rf hB,
    Backend.add_comment_likesNodup dbb s pid text now hB,
    Backend.edit_post_likesNodup dbb s pid content hB,
    Backend.delete_post_likesNodup dbb s pid hB,
    Backend.create_post_likesNodup dbb s content img nid now hB,
    ⟨{ id := nid, author := u, content := content, image := img,
       timestamp := now, likes := [], comments := [] }, rfl, rfl⟩,
    Cookie.like_post_likesNodup_cookie dbc c pid hC,
    Cookie.comment_on_post_likesNodup dbc c pid text hC,
    Cookie.edit_post_likesNodup_cookie dbc c pid content hC,
    Cookie.delete_post_likesNodup_cookie dbc c pid hC,
    Cookie.create_post_likesNodup_cookie dbc c content photo nid hC,
    ?_⟩
  intro usr husr
  exact ⟨{ id := nid, author := usr.username, content := content,
           photo := photo.map (fun f => usr.username ++ "_" ++ f),
           likes := [], comments := [], timestamp := "" },
    by simp [Cookie.create_post, husr], rfl⟩

/-- Witness for claim C9 at the concrete stores with alice logged in. -/
theorem C9_likes_nodup_invariant_witness :
    (Backend.likesNodup dbB ∧ Cookie.likesNodup dbC) ∧
    (Backend.likesNodup (Backend.like_post dbB (some "alice") "p1" true).2 ∧
    Backend.likesNodup (Backend.add_comment dbB (some "alice") "p1" "t" 7).2 ∧
    Backend.likesNodup (Backend.edit_post dbB (some "alice") "p1" "c").2 ∧
    Backend.likesNodup (Backend.delete_post dbB (some "alice") "p1").2 ∧
    Backend.likesNodup (Backend.create_post dbB (some "alice") "c" none "p9" 7).2 ∧
    (∃ newPost, (Backend.create_post dbB (some "alice") "c" none "p9" 7).2.posts =
      dbB.posts ++ [newPost] ∧ newPost.likes = []) ∧
    Cookie.likesNodup (Cookie.like_post dbC (some "alice") "p1").2 ∧
    Cookie.likesNodup (Cookie.comment_on_post dbC (some "alice") "p1" "t").2 ∧
    Cookie.likesNodup (Cookie.edit_post dbC (some "alice") "p1" "c").2 ∧
    Cookie.likesNodup (Cookie.delete_post dbC (some "alice") "p1").2 ∧
    Cookie.likesNodup (Cookie.create_post dbC (some "alice") "c" none "p9").2 ∧
    (∀ usr, Cookie.get_current_user dbC (some "alice") = some usr →
      ∃ newPost, (Cookie.create_post dbC (some "alice") "c" none "p9").2.posts =
        dbC.posts ++ [newPost] ∧ newPost.likes = [])) :=
  ⟨⟨by unfold Backend.likesNodup; decide, by unfold Cookie.likesNodup; decide⟩,
   C9_likes_nodup_invariant dbB dbC (some "alice") (some "alice") "alice" "p1" "c" "t" "p9"
     none none 7 true (by unfold Backend.likesNodup; decide)
     (by unfold Cookie.likesNodup; decide)⟩

/-- Claim C10: any rendered feed page of the token implementation holds
at most 100 posts (all four filter branches are capped by limit(100)),
and the default unfiltered feed is ordered by timestamp descending. -/
theorem C10_feed_capped_and_sorted
    (db : Backend.DB) (u : String) (filt : Option String) (y : Nat)
    (l : List Backend.Post)
    (h : Backend.feed db (some u) filt y = Backend.FeedResult.page l) :
    l.length ≤ 100 ∧ (filt = none → List.Sorted Backend.tsDesc l) := by
  cases hu : Backend.findUser db.users u with
  | none =>
    rw [show Backend.feed db (some u) filt y = Backend.FeedResult.crash from by
      simp [Backend.feed, hu]] at h
    exact Backend.FeedResult.noConfusion h
  | some user =>
    by_cases h1 : filt = some "following"
    · subst h1
      simp only [Backend.feed, hu] at h
      split at h <;>
        · injection h with h
          subst h
          exact ⟨List.length_take_le _ _, fun hf => Option.noConfusion hf⟩
    · by_cases h2 : filt = some "popular"
      · subst h2
        simp [Backend.feed, hu] at h
        subst h
        exact ⟨List.length_take_le _ _, fun hf => Option.noConfusion hf⟩
      · by_cases h3 : filt = some "recent"
        · subst h3
          simp [Backend.feed, hu] at h
          subst h
          exact ⟨List.length_take_le _ _, fun hf => Option.noConfusion hf⟩
        · have he : Backend.feed db (some u) filt y =
              Backend.FeedResult.page ((db.posts.insertionSort Backend.tsDesc).take 100) := by
            simp [Backend.feed, hu, h1, h2, h3]
          rw [he] at h
          injection h with h
          subst h
          exact ⟨List.length_take_le _ _, fun _ =>
            List.Pairwise.sublist (List.take_sublist 100 _)
              (List.sorted_insertionSort _ _)⟩

/-- Witness for claim C10: the default feed for alice at the concrete
store returns the two posts newest first. -/
theorem C10_feed_capped_and_sorted_witness :
    Backend.feed dbB (some "alice") none 0 = Backend.FeedResult.page [pTwo, pOne] ∧
    ([pTwo, pOne].length ≤ 100 ∧
      ((none : Option String) = none → List.Sorted Backend.tsDesc [pTwo, pOne])) :=
  ⟨by decide, C10_feed_capped_and_sorted dbB "alice" none 0 [pTwo, pOne] (by decide)⟩

theorem Backend.edit_profile_rename_run (db : Backend.DB) (old nw : String)
    (email password : Option String)
    (hne : nw ≠ old) (hnz : nw ≠ "")
    (hfree : Backend.findUser db.users nw = none) :
    Backend.edit_profile db (some old) nw email password =
      (Resp.redirect ("/profile/" ++ nw) 303,
       { users := Backend.renameFollowing
           (Backend.renameFollowers
             (Backend.updateUser db.users old
               (Backend.applyUserSet (some nw) (Backend.truthy email)
                 ((Backend.truthy password).map Backend.hash_password)))
             old nw)
           old nw,
         posts := Backend.renameComments
           (Backend.renameLikes (Backend.renamePostsAuthor db.posts old nw) old nw)
           old nw }) := by
  simp [Backend.edit_profile, hfree, hne, hnz]

theorem map_renameOcc_of_not_mem {l : List String} {old nw : String} (h : old ∉ l) :
    l.map (renameOcc old nw) = l := by
  have hpt : ∀ x ∈ l, renameOcc old nw x = id x := by
    intro x hx
    have hxo : x ≠ old := fun he => h (he ▸ hx)
    simp [renameOcc, hxo]
  rw [List.map_congr_left hpt, List.map_id]

theorem map_renameComment_of_not_any {l : List Backend.Comment} {old nw : String}
    (h : ¬ l.any (fun c => c.username == old)) :
    l.map (fun c => if c.username = old then { c with username := nw } else c) = l := by
  have hpt : ∀ c ∈ l, (if c.username = old then { c with username := nw } else c) = id c := by
    intro c hc
    have hco : ¬ c.username = old := by
      intro he
      exact h (List.any_eq_true.mpr ⟨c, hc, by simp [he]⟩)
    simp [hco]
  rw [List.map_congr_left hpt, List.map_id]

/-- Claim C1 as amended: a successful profile edit that changes the
username from old to new (the new name nonempty and not already taken)
leaves, across the whole store: every post that was authored by old now
authored by new, every occurrence of old in every likes array replaced
by new, every comment by old now carrying new, and every occurrence of
old in every followers and following array replaced by new — provided
every such array holds at most one occurrence of old.  The positional
dollar updates of the handler rewrite only the first matching array
element per document, and stores with a duplicated entry are reachable
(follow never checks that the target exists, and a rename onto a name
already present in an array duplicates it), so without the occurrence
bound the replaced-everywhere property fails. -/
theorem C1_edit_profile_rename_consistent
    (db : Backend.DB) (old nw : String) (email password : Option String)
    (hne : nw ≠ old) (hnz : nw ≠ "")
    (hfree : Backend.findUser db.users nw = none)
    (hlikes : ∀ p ∈ db.posts, p.likes.count old ≤ 1)
    (hfol : ∀ u ∈ db.users, u.followers.count old ≤ 1)
    (hfog : ∀ u ∈ db.users, u.following.count old ≤ 1) :
    List.Forall₂ (fun p p2 =>
        (p.author = old → p2.author = nw) ∧
        p2.likes = p.likes.map (renameOcc old nw) ∧
        p2.comments = p.comments.map (fun c =>
          if c.username = old then { c with username := nw } else c))
      db.posts (Backend.edit_profile db (some old) nw email password).2.posts ∧
    List.Forall₂ (fun u u2 =>
        u2.followers = u.followers.map (renameOcc old nw) ∧
        u2.following = u.following.map (renameOcc old nw))
      db.users (Backend.edit_profile db (some old) nw email password).2.users := by
  rw [Backend.edit_profile_rename_run db old nw email password hne hnz hfree]
  constructor
  · show List.Forall₂ _ db.posts
      (Backend.renameComments (Backend.renameLikes (Backend.renamePostsAuthor db.posts old nw) old nw) old nw)
    rw [Backend.renameComments, Backend.renameLikes, Backend.renamePostsAuthor,
      List.map_map, List.map_map, List.forall₂_map_right_iff, List.forall₂_same]
    intro p hp
    have hc := hlikes p hp
    by_cases ha : p.author = old <;> by_cases hl : old ∈ p.likes <;>
      by_cases hcm : p.comments.any (fun c => c.username == old) <;>
        simp [Function.comp, ha, hl, hcm, hne, setFirstOcc_eq_map hc,
          map_renameOcc_of_not_mem, map_renameComment_of_not_any]
  · show List.Forall₂ _ db.users
      (Backend.renameFollowing (Backend.renameFollowers
        (Backend.updateUser db.users old
          (Backend.applyUserSet (some nw) (Backend.truthy email)
            ((Backend.truthy password).map Backend.hash_password))) old nw) old nw)
    rw [Backend.renameFollowing, Backend.renameFollowers, List.map_map,
      List.forall₂_map_right_iff]
    refine forall₂_updateFirst _ _ _ _ ?_ ?_
    · intro u hu
      have h1 := hfol u hu
      have h2 := hfog u hu
      by_cases hf1 : old ∈ u.followers <;> by_cases hf2 : old ∈ u.following <;>
        simp [Function.comp, hf1, hf2, setFirstOcc_eq_map h1, setFirstOcc_eq_map h2,
          map_renameOcc_of_not_mem]
    · intro u hu
      have h1 := hfol u hu
      have h2 := hfog u hu
      by_cases hf1 : old ∈ u.followers <;> by_cases hf2 : old ∈ u.following <;>
        simp [Function.comp, Backend.applyUserSet, hf1, hf2,
          setFirstOcc_eq_map h1, setFirstOcc_eq_map h2, map_renameOcc_of_not_mem]

/-- Witness for claim C1: alice renames herself to carol at the concrete
store. -/
theorem C1_edit_profile_rename_consistent_witness :
    ("carol" ≠ "alice" ∧ "carol" ≠ "" ∧
     Backend.findUser dbB.users "carol" = none ∧
     (∀ p ∈ dbB.posts, p.likes.count "alice" ≤ 1) ∧
     (∀ u ∈ dbB.users, u.followers.count "alice" ≤ 1) ∧
     (∀ u ∈ dbB.users, u.following.count "alice" ≤ 1)) ∧
    (List.Forall₂ (fun p p2 =>
        (p.author = "alice" → p2.author = "carol") ∧
        p2.likes = p.likes.map (renameOcc "alice" "carol") ∧
        p2.comments = p.comments.map (fun c =>
          if c.username = "alice" then { c with username := "carol" } else c))
      dbB.posts (Backend.edit_profile dbB (some "alice") "carol" none none).2.posts ∧
    List.Forall₂ (fun u u2 =>
        u2.followers = u.followers.map (renameOcc "alice" "carol") ∧
        u2.following = u.following.map (renameOcc "alice" "carol"))
      dbB.users (Backend.edit_profile dbB (some "alice") "carol" none none).2.users) :=
  ⟨⟨by decide, by decide, by decide, by decide, by decide, by decide⟩,
   C1_edit_profile_rename_consistent dbB "alice" "carol" none none (by decide) (by decide)
     (by decide) (by decide) (by decide) (by decide)⟩

/-- Counterexample to claim C1 as stated: at the reachable store in
which carol.following holds the name dave twice, a successful rename of
dave to eve (new name nonempty, not taken) leaves an occurrence of the
old name behind, because the positional dollar update rewrites only the
first matching array element per document.  So not every occurrence of
old is replaced by new. -/
theorem C1_rename_positional_counterexample :
    Backend.findUser dbC1dup.users "carol" =
      some { carolD with following := ["dave", "dave"] } ∧
    (Backend.findUser
        (Backend.edit_profile dbC1dup (some "dave") "eve" none none).2.users "carol").map
      Backend.User.following = some ["eve", "dave"] ∧
    ("dave" : String) ≠ "eve" := by
  decide

/-- Counterexample to claim C8 as stated: at the reachable store in
which dave.following holds the name bob twice while a user record named
bob exists, a follow call by dave on bob is an addToSet no-op, so
afterwards the target appears twice, not exactly once, in the following
array. -/
theorem C8_follow_duplicate_counterexample :
    (Backend.findUser dbC8dup.users "dave").map Backend.User.following = some ["bob", "bob"] ∧
    (Backend.findUser dbC8dup.users "bob").isSome = true ∧
    ("dave" : String) ≠ "bob" ∧
    (Backend.findUser (Backend.follow_user dbC8dup (some "dave") "bob").2.users "dave").map
      Backend.User.following = some ["bob", "bob"] ∧
    (["bob", "bob"].count "bob") ≠ 1 := by
  decide
